import Mathlib

/- Verification development for the news proxy backend (src/index.js).

   Shallow embedding: strings are modelled as lists of characters, the two
   external HTTP services (article fetch / inference endpoint / news provider)
   are modelled as oracle outcomes passed into the handlers, shared mutable
   state (summary cache, readiness flag, rate-limit hits) is passed
   explicitly, and wall-clock time is an explicit millisecond counter.
   The general recursions that implement the JavaScript regex replacements
   are written with an explicit fuel argument; every call site passes fuel
   `length + 1`, which is enough because each step consumes at least one
   character of the input. -/

namespace NewsProxy

abbrev Str := List Char

/-- JS word-character class, the set matched by a backslash-w escape. -/
def isJsWordChar (c : Char) : Bool :=
  ('A' ≤ c && c ≤ 'Z') || ('a' ≤ c && c ≤ 'z') || ('0' ≤ c && c ≤ '9') || c == '_'

/-- JS whitespace class: the set matched by a backslash-s escape, which is also
the set stripped by String.prototype.trim (whitespace plus line terminators). -/
def isJsSpace (c : Char) : Bool :=
  c == ' ' || c == '\t' || c == '\n' || c == '\r' ||
  c.toNat == 11 || c.toNat == 12 || c.toNat == 0xa0 || c.toNat == 0x1680 ||
  (0x2000 ≤ c.toNat && c.toNat ≤ 0x200a) ||
  c.toNat == 0x2028 || c.toNat == 0x2029 || c.toNat == 0x202f ||
  c.toNat == 0x205f || c.toNat == 0x3000 || c.toNat == 0xfeff

/-- JS line terminators (the characters NOT matched by the dot). -/
def isLineTerm (c : Char) : Bool :=
  c == '\n' || c == '\r' || c.toNat == 0x2028 || c.toNat == 0x2029

/-- Case-insensitive character comparison, for the regex i flag. -/
def lowEq (a b : Char) : Bool := a.toLower == b.toLower

/-- Case-insensitive literal-prefix test (first argument is the pattern). -/
def startsWithCI : Str → Str → Bool
  | [], _ => true
  | _ :: _, [] => false
  | p :: ps, s :: ss => lowEq p s && startsWithCI ps ss

/- Embedding of the two block-removal regexes of extractMainText
   (src/index.js lines 145-146), e.g. for script:
     <script\b[^<]*(?:(?!<\/script>)<[^<]*)*<\/script>   with flags gi.
   After the literal open tag and the word boundary, the engine repeatedly
   consumes a run of non-< characters and then either finds the close tag or
   consumes the < and continues; this is deterministic because every stop
   point of the greedy star requires the close tag, which the negative
   lookahead has already ruled out. -/

/-- One iteration position of the star: the input is at end or at a <. -/
def blockLoop (close : Str) : Nat → Str → Option Str
  | 0, _ => none
  | fuel + 1, s =>
    if startsWithCI close s then some (s.drop close.length)
    else
      match s with
      | [] => none
      | _ :: rest => blockLoop close fuel (rest.dropWhile (fun d => !(d == '<')))

/-- Attempt the block regex at the current position (which must be a <):
literal open tag, word boundary, then the loop above. Returns the remainder
of the input after the match. -/
def matchBlock (openTag close : Str) (s : Str) : Option Str :=
  match s with
  | '<' :: rest =>
    if startsWithCI openTag rest then
      let r1 := rest.drop openTag.length
      match r1 with
      | [] => none
      | d :: _ =>
        if isJsWordChar d then none
        else blockLoop close (r1.length + 1) (r1.dropWhile (fun e => !(e == '<')))
    else none
  | _ => none

/-- Global replacement of the block regex by the empty string. -/
def removeBlocksF (openTag close : Str) : Nat → Str → Str
  | 0, s => s
  | _ + 1, [] => []
  | fuel + 1, c :: rest =>
    if c == '<' then
      match matchBlock openTag close (c :: rest) with
      | some rem => removeBlocksF openTag close fuel rem
      | none => c :: removeBlocksF openTag close fuel rest
    else c :: removeBlocksF openTag close fuel rest

def removeBlocks (openTag close s : Str) : Str :=
  removeBlocksF openTag close (s.length + 1) s

def scriptOpen : Str := "script".data
def scriptClose : Str := ("<" ++ "/script>").data
def styleOpen : Str := "style".data
def styleClose : Str := ("<" ++ "/style>").data

/-- Global replacement of `<[^>]+>` by a single space (line 147): at a <, at
least one non-> character followed by a >; otherwise the character is kept. -/
def stripTagsF : Nat → Str → Str
  | 0, s => s
  | _ + 1, [] => []
  | fuel + 1, c :: rest =>
    if c == '<' then
      let inside := rest.takeWhile (fun d => !(d == '>'))
      match rest.drop inside.length with
      | '>' :: rest2 =>
        if inside.isEmpty then c :: stripTagsF fuel rest
        else ' ' :: stripTagsF fuel rest2
      | _ => c :: stripTagsF fuel rest
    else c :: stripTagsF fuel rest

def stripTags (s : Str) : Str := stripTagsF (s.length + 1) s

/-- Global replacement of one-or-more whitespace by a single space (line 148). -/
def collapseWs : Str → Str
  | [] => []
  | [c] => if isJsSpace c then [' '] else [c]
  | c1 :: c2 :: rest =>
    if isJsSpace c1 && isJsSpace c2 then collapseWs (c2 :: rest)
    else (if isJsSpace c1 then ' ' else c1) :: collapseWs (c2 :: rest)

/-- String.prototype.trim (line 149). -/
def jsTrim (s : Str) : Str :=
  ((s.dropWhile isJsSpace).reverse.dropWhile isJsSpace).reverse

/-- extractMainText (src/index.js lines 143-151): strip script and style
blocks, strip remaining tags, collapse whitespace, trim, truncate to 1024. -/
def extractMainText (html : Str) : Str :=
  let s1 := removeBlocks scriptOpen scriptClose html
  let s2 := removeBlocks styleOpen styleClose s1
  let s3 := stripTags s2
  let s4 := collapseWs s3
  (jsTrim s4).take 1024

/-- C2 counterexample: the claim that the extractor output never contains a
< or > character fails on the inputs "a < b" and "x > y": the tag regex
`<[^>]+>` needs a < and a closing >, so a stray angle bracket survives every
replacement and appears in the output. -/
theorem extractMainText_keeps_angle :
    '<' ∈ extractMainText "a < b".data ∧ '>' ∈ extractMainText "x > y".data := by
  decide

/-- C2 (amended): for every HTML input the extractor output has length at
most 1024 (the final substring step guarantees this); the no-angle-bracket
part of the original claim is false, see the counterexample. -/
theorem extractMainText_length_le (html : Str) :
    (extractMainText html).length ≤ 1024 := by
  have h : ∀ l : Str, (l.take 1024).length ≤ 1024 := by
    intro l
    simp [List.length_take]
  exact h _

/- Fallback summarizer (src/index.js lines 188-196). The sentence split uses
     (?<!\w\.\w.)(?<![A-Z][a-z]\.)(?<=\.|\?|\!)\s   with flag g :
   a single whitespace character preceded by . ? or !, except after an
   initial-like pattern. All three lookbehinds inspect the characters just
   before the match position, so the split is computed by a left-to-right scan
   that carries the already-seen characters (most recent first). -/

/-- Is the character c a sentence separator, given the characters before it
(prev, most recent first)? Mirrors the three lookbehinds and the single
whitespace of the split regex. -/
def sentSep (prev : Str) (c : Char) : Bool :=
  isJsSpace c &&
  (match prev with
   | p1 :: _ => p1 == '.' || p1 == '?' || p1 == '!'
   | [] => false) &&
  !(match prev with
    | p1 :: p2 :: p3 :: p4 :: _ =>
      isJsWordChar p4 && p3 == '.' && isJsWordChar p2 && !(isLineTerm p1)
    | _ => false) &&
  !(match prev with
    | p1 :: p2 :: p3 :: _ =>
      ('A' ≤ p3 && p3 ≤ 'Z') && ('a' ≤ p2 && p2 ≤ 'z') && p1 == '.'
    | _ => false)

def splitGo : Str → Str → Str → List Str
  | _, cur, [] => [cur.reverse]
  | prev, cur, c :: rest =>
    if sentSep prev c then cur.reverse :: splitGo (c :: prev) [] rest
    else splitGo (c :: prev) (c :: cur) rest

def splitSentences (text : Str) : List Str := splitGo [] [] text

/-- Array.prototype.join with separator a single space. -/
def joinSpace : List Str → Str
  | [] => []
  | [x] => x
  | x :: y :: xs => x ++ ' ' :: joinSpace (y :: xs)

def noContentMsg : Str := "No content available for summarization.".data

/-- fallbackSummary (src/index.js lines 188-196); the orchestrator calls it
with the default sentence count 3. -/
def fallbackSummary (text : Str) (sentences : Nat) : Str :=
  if text.isEmpty then noContentMsg
  else
    let sentenceList := splitSentences text
    if sentenceList.length ≤ sentences then text
    else joinSpace (sentenceList.take sentences)

/- Minimal JSON value model for the bodies exchanged with the three external
   HTTP services. Truthiness mirrors JavaScript (numbers are modelled as
   integers; NaN and floating point are out of scope, no claim needs them). -/

inductive Json where
  | null : Json
  | bool (b : Bool) : Json
  | num (n : Int) : Json
  | str (s : Str) : Json
  | arr (elems : List Json) : Json
  | obj (fields : List (Str × Json)) : Json

def Json.truthy : Json → Bool
  | .null => false
  | .bool b => b
  | .num n => !(n == 0)
  | .str s => !s.isEmpty
  | .arr _ => true
  | .obj _ => true

/-- JS indexing v[0]: element 0 of an array, the "0" property of an object,
the first character of a string; undefined (none) otherwise. -/
def Json.get0 : Json → Option Json
  | .arr elems => elems.head?
  | .obj fields => (fields.find? (fun p => p.1 == "0".data)).map (fun p => p.2)
  | .str s =>
    match s with
    | [] => none
    | c :: _ => some (.str [c])
  | _ => none

/-- JS property access v.key on an object; undefined (none) otherwise. -/
def Json.getField (j : Json) (key : Str) : Option Json :=
  match j with
  | .obj fields => (fields.find? (fun p => p.1 == key)).map (fun p => p.2)
  | _ => none

def summaryTextKey : Str := "summary_text".data

def optTruthy : Option Json → Bool
  | some v => v.truthy
  | none => false

/-- The guarded extraction performed at src/index.js line 169:
`response.data && response.data[0] && response.data[0].summary_text` —
returns the summary value when the whole chain is truthy. -/
def hfExtract (body : Json) : Option Json :=
  if body.truthy then
    match body.get0 with
    | some item =>
      if item.truthy then
        match item.getField summaryTextKey with
        | some v => if v.truthy then some v else none
        | none => none
      else none
    | none => none
  else none

/- Inference client (summarizeWithHF, src/index.js lines 154-185). The
   outcome of the single axios POST is an oracle input: a 2xx response with a
   JSON body, or one of the axios rejection modes (HTTP error status, network
   error, timeout), each carrying the error message the thrown Error would
   have. The `requested` flag records whether the HTTP request was issued. -/

inductive HFOutcome where
  | success (body : Json)
  | httpError (status : Nat) (body : Json) (msg : Str)
  | netError (msg : Str)
  | timeout (msg : Str)

inductive HFError where
  | noSummary
  | axios (msg : Str)

def HFError.message : HFError → Str
  | .noSummary => "Summary not available from Hugging Face".data
  | .axios msg => msg

structure HFCall where
  result : Except HFError Json
  requested : Bool

def shortMsg : Str := "Article content too short for summarization".data

def summarizeWithHF (text : Str) (hf : HFOutcome) : HFCall :=
  if text.isEmpty || decide (text.length < 50) then
    ⟨.ok (.str shortMsg), false⟩
  else
    match hf with
    | .success body =>
      match hfExtract body with
      | some v => ⟨.ok v, true⟩
      | none => ⟨.error .noSummary, true⟩
    | .httpError _ _ msg => ⟨.error (.axios msg), true⟩
    | .netError msg => ⟨.error (.axios msg), true⟩
    | .timeout msg => ⟨.error (.axios msg), true⟩

/-- An inference-client failure mode: a 2xx response whose body fails the
summary-extraction guard (malformed/empty result), or any axios rejection
(HTTP error, network error, timeout). -/
def HFOutcome.failing : HFOutcome → Bool
  | .success body => (hfExtract body).isNone
  | _ => true

def isThrown : Except HFError Json → Bool
  | .error _ => true
  | .ok _ => false

/- Health-check handler (src/index.js lines 55-64). -/

structure Response where
  status : Nat
  body : Json

def warmupText : Str := "This is a test text to warm up the model.".data

structure HealthResult where
  resp : Response
  hfReady : Bool
  hfCalls : Nat

def statusOkBody (v : Json) : Json :=
  .obj [("status".data, .str "ok".data), ("summary".data, v)]

def statusErrorBody (msg : Str) : Json :=
  .obj [("status".data, .str "error".data), ("error".data, .str msg)]

def healthHandler (hf : HFOutcome) : HealthResult :=
  let call := summarizeWithHF warmupText hf
  match call.result with
  | .ok v => ⟨⟨200, statusOkBody v⟩, true, if call.requested then 1 else 0⟩
  | .error e => ⟨⟨500, statusErrorBody e.message⟩, false, if call.requested then 1 else 0⟩

/-- C1 (the code violates the claim): on every invocation, whatever the
inference endpoint would do, the health-check handler sets the readiness flag
to true and issues zero inference requests — the fixed warm-up sentence is 41
characters long, below the 50-character minimum of summarizeWithHF, so the
warm-up short-circuits with the too-short literal and never reaches the
endpoint. -/
theorem health_marks_ready_without_inference (hf : HFOutcome) :
    (healthHandler hf).hfReady = true ∧ (healthHandler hf).hfCalls = 0 ∧
    (healthHandler hf).resp.status = 200 ∧ warmupText.length = 41 :=
  ⟨rfl, rfl, rfl, rfl⟩

/- Summary cache. -/

def TTL_MS : Nat := 60 * 60 * 1000

structure CacheEntry where
  value : Json
  expiry : Nat

abbrev Cache := List (Str × CacheEntry)

/-- Modelled from the spec: the summary store is the node-cache library
(`new NodeCache({ stdTTL: 60 * 60 })`, src/index.js line 11), whose code is
not under src/. Per the spec, an entry expires a fixed TTL (one hour) after
insertion, an expired entry is treated as absent, and there is at most one
live entry per URL. Times are in milliseconds. -/
def cacheGet (cache : Cache) (now : Nat) (url : Str) : Option Json :=
  match cache.find? (fun p => p.1 == url) with
  | some p => if now < p.2.expiry then some p.2.value else none
  | none => none

/-- Modelled from the spec: insertion stamps the entry with a one-hour expiry
and replaces any previous entry for the same URL. -/
def cacheSet (cache : Cache) (now : Nat) (url : Str) (v : Json) : Cache :=
  (url, ⟨v, now + TTL_MS⟩) :: cache.filter (fun p => !(p.1 == url))

def lookupEntry (cache : Cache) (url : Str) : Option CacheEntry :=
  (cache.find? (fun p => p.1 == url)).map (fun p => p.2)

/- Request orchestrator: the /summarize handler (src/index.js lines 83-140)
   and, in front of it, the rate-limiting middleware (lines 44-52, 83). -/

structure Effects where
  fetches : Nat
  hfCalls : Nat

inductive FetchOutcome where
  | ok (html : Str)
  | fail (msg : Str)

structure HandlerResult where
  resp : Response
  cache : Cache
  hfReady : Bool
  effects : Effects

def summaryBody (v : Json) : Json := .obj [("summary".data, v)]

def errorBody (msg : Str) : Json := .obj [("error".data, .str msg)]

def errorDetailsBody (msg details : Str) : Json :=
  .obj [("error".data, .str msg), ("details".data, .str details)]

def loadingMsg : Str :=
  "AI model is still loading. Please try again in 30 seconds.".data

def summaryFailMsg : Str :=
  "Failed to generate summary. Please try another article.".data

def tooManyMsg : Str :=
  "Too many summarization requests, please try again later".data

/-- The inference-with-fallback step (src/index.js lines 116-122): attempt
summarizeWithHF; the catch substitutes fallbackSummary. Returns the summary
value and the number of inference HTTP requests issued. -/
def runSummarize (text : Str) (hf : HFOutcome) : Json × Nat :=
  let call := summarizeWithHF text hf
  let calls := if call.requested then 1 else 0
  match call.result with
  | .ok v => (v, calls)
  | .error _ => (.str (fallbackSummary text 3), calls)

/-- The /summarize handler after the cache check fell through: readiness gate,
article fetch, extraction, inference-with-fallback, cache write. -/
def summarizeMiss (cache : Cache) (hfReady : Bool) (now : Nat) (url : Str)
    (fetch : FetchOutcome) (hf : HFOutcome) : HandlerResult :=
  if !hfReady then
    ⟨⟨503, errorBody loadingMsg⟩, cache, hfReady, ⟨0, 0⟩⟩
  else
    match fetch with
    | .fail msg => ⟨⟨500, errorDetailsBody summaryFailMsg msg⟩, cache, hfReady, ⟨1, 0⟩⟩
    | .ok html =>
      let text := extractMainText html
      let sres := runSummarize text hf
      ⟨⟨200, summaryBody sres.1⟩, cacheSet cache now url sres.1, hfReady, ⟨1, sres.2⟩⟩

/-- The /summarize handler body (src/index.js lines 83-140): truthiness-tested
cache lookup first, then the miss path. -/
def summarizeHandler (cache : Cache) (hfReady : Bool) (now : Nat) (url : Str)
    (fetch : FetchOutcome) (hf : HFOutcome) : HandlerResult :=
  match cacheGet cache now url with
  | some v =>
    if v.truthy then ⟨⟨200, summaryBody v⟩, cache, hfReady, ⟨0, 0⟩⟩
    else summarizeMiss cache hfReady now url fetch hf
  | none => summarizeMiss cache hfReady now url fetch hf

def WINDOW_MS : Nat := 15 * 60 * 1000

def RATE_MAX : Nat := 50

/-- Modelled from the spec: the number of this client's previous requests
inside the sliding 15-minute window (the express-rate-limit middleware of
src/index.js lines 44-52 is library code not under src/; the spec prescribes
a sliding-window cap of 50 requests per 15 minutes per client identity). -/
def countInWindow (hits : List Nat) (now : Nat) : Nat :=
  (hits.filter (fun t => decide (now < t + WINDOW_MS))).length

structure RouteResult where
  resp : Response
  cache : Cache
  hfReady : Bool
  hits : List Nat
  effects : Effects

/-- The /summarize route as registered (src/index.js line 83): the
rate-limiting middleware in front of the handler. The 429 status and its
literal message are from src/index.js lines 47-51; the window mechanics are
modelled from the spec (see countInWindow). Every request, allowed or
rejected, is recorded in the client's hit list. -/
def summarizeRoute (cache : Cache) (hfReady : Bool) (hits : List Nat) (now : Nat)
    (url : Str) (fetch : FetchOutcome) (hf : HFOutcome) : RouteResult :=
  if RATE_MAX ≤ countInWindow hits now then
    ⟨⟨429, errorBody tooManyMsg⟩, cache, hfReady, now :: hits, ⟨0, 0⟩⟩
  else
    let h := summarizeHandler cache hfReady now url fetch hf
    ⟨h.resp, h.cache, h.hfReady, now :: hits, h.effects⟩

/- News relay (/api/news, src/index.js lines 67-80). -/

inductive NewsOutcome where
  | ok (body : Json)
  | fail (msg : Str)

/-- The upstream URL exactly as the template literal at src/index.js line 70
builds it: the four query parameters plus the server-held credential. -/
def buildNewsUrl (country category page pageSize apiKey : Str) : Str :=
  "https://newsapi.org/v2/top-headlines?country=".data ++ country ++
  "&category=".data ++ category ++
  "&apiKey=".data ++ apiKey ++
  "&page=".data ++ page ++
  "&pageSize=".data ++ pageSize

structure NewsResult where
  resp : Response
  requestUrl : Str

def newsHandler (country category page pageSize apiKey : Str)
    (outcome : NewsOutcome) : NewsResult :=
  { requestUrl := buildNewsUrl country category page pageSize apiKey
    resp :=
      match outcome with
      | .ok body => ⟨200, body⟩
      | .fail msg => ⟨500, errorDetailsBody "Proxy error".data msg⟩ }

/- Helper lemmas. -/

theorem shortCond_false (text : Str) (h : 50 ≤ text.length) :
    (text.isEmpty || decide (text.length < 50)) = false := by
  have h1 : text.isEmpty = false := by
    cases text with
    | nil => simp at h
    | cons a l => rfl
  simp [h1]
  omega

theorem cacheGet_cacheSet_same (cache : Cache) (now : Nat) (url : Str)
    (v : Json) (later : Nat) :
    cacheGet (cacheSet cache now url v) later url =
      if later < now + TTL_MS then some v else none := by
  unfold cacheGet cacheSet
  rw [List.find?_cons_of_pos _ (by simp)]

/-- C6: a set followed immediately by a get for the same URL returns the
stored summary, and once the one-hour TTL has elapsed the get returns absent. -/
theorem cache_set_get_ttl (cache : Cache) (now : Nat) (url : Str) (v : Json) :
    cacheGet (cacheSet cache now url v) now url = some v ∧
    ∀ later : Nat, now + TTL_MS ≤ later →
      cacheGet (cacheSet cache now url v) later url = none := by
  constructor
  · have hlt : now < now + TTL_MS := by unfold TTL_MS; omega
    rw [cacheGet_cacheSet_same, if_pos hlt]
  · intro later h
    rw [cacheGet_cacheSet_same, if_neg (by omega)]

/-- C6 witness: concrete set/get round-trip and expiry. -/
theorem cache_set_get_ttl_witness :
    cacheGet (cacheSet [] 0 "u".data (Json.str "s".data)) 0 "u".data =
      some (Json.str "s".data) ∧
    cacheGet (cacheSet [] 0 "u".data (Json.str "s".data)) TTL_MS "u".data =
      none :=
  ⟨(cache_set_get_ttl [] 0 "u".data (Json.str "s".data)).1,
   (cache_set_get_ttl [] 0 "u".data (Json.str "s".data)).2 TTL_MS (by omega)⟩

/-- C5: if the input text is absent (the empty string, the falsy string case)
or shorter than 50 characters, the inference client returns the fixed
too-short literal and issues no HTTP request to the inference service. -/
theorem short_text_short_circuit (text : Str) (hf : HFOutcome)
    (h : text.length < 50) :
    summarizeWithHF text hf = ⟨.ok (.str shortMsg), false⟩ ∧
    shortMsg = "Article content too short for summarization".data := by
  constructor
  · unfold summarizeWithHF
    rw [if_pos (by simp [h])]
  · rfl

/-- C5 witness: a concrete short text, with an endpoint outcome that would
fail if it were ever consulted. -/
theorem short_text_short_circuit_witness :
    summarizeWithHF "hi".data (HFOutcome.netError "boom".data) =
      ⟨.ok (.str shortMsg), false⟩ :=
  (short_text_short_circuit "hi".data (HFOutcome.netError "boom".data)
    (by decide)).1

/-- C7: a /summarize request whose URL has no live cache entry is rejected
with 503 and an error-field body while the readiness flag is false, with no
article fetch and no inference call, and no state change. -/
theorem not_ready_yields_503 (cache : Cache) (now : Nat) (url : Str)
    (fetch : FetchOutcome) (hf : HFOutcome)
    (hmiss : cacheGet cache now url = none) :
    summarizeHandler cache false now url fetch hf =
      ⟨⟨503, errorBody loadingMsg⟩, cache, false, ⟨0, 0⟩⟩ := by
  unfold summarizeHandler
  rw [hmiss]
  rfl

/-- C7 witness: empty cache, readiness false. -/
theorem not_ready_yields_503_witness :
    summarizeHandler [] false 0 "u".data (FetchOutcome.fail "x".data)
        (HFOutcome.netError "e".data) =
      ⟨⟨503, errorBody loadingMsg⟩, [], false, ⟨0, 0⟩⟩ :=
  not_ready_yields_503 [] 0 "u".data (FetchOutcome.fail "x".data)
    (HFOutcome.netError "e".data) rfl

/-- C8: the news relay builds the upstream URL from exactly the four query
parameters plus the server-held credential, returns the upstream JSON body
unmodified with status 200 on success, and returns 500 with an error field
and the upstream error message as details on failure. -/
theorem news_relay_forwards (country category page pageSize apiKey : Str)
    (body : Json) (msg : Str) :
    (newsHandler country category page pageSize apiKey (.ok body)).resp =
      ⟨200, body⟩ ∧
    (newsHandler country category page pageSize apiKey (.fail msg)).resp =
      ⟨500, errorDetailsBody "Proxy error".data msg⟩ ∧
    (newsHandler country category page pageSize apiKey (.ok body)).requestUrl =
      "https://newsapi.org/v2/top-headlines?country=".data ++ country ++
      "&category=".data ++ category ++ "&apiKey=".data ++ apiKey ++
      "&page=".data ++ page ++ "&pageSize=".data ++ pageSize :=
  ⟨rfl, rfl, rfl⟩

/-- C9: a /summarize request from a client that already has 50 (or more)
requests inside the 15-minute window is rejected with 429 and the literal
rate-limit message, with the cache untouched and no fetch and no inference
call. -/
theorem rate_limit_rejects_51st (cache : Cache) (hfReady : Bool)
    (hits : List Nat) (now : Nat) (url : Str) (fetch : FetchOutcome)
    (hf : HFOutcome) (h : RATE_MAX ≤ countInWindow hits now) :
    summarizeRoute cache hfReady hits now url fetch hf =
      ⟨⟨429, errorBody tooManyMsg⟩, cache, hfReady, now :: hits, ⟨0, 0⟩⟩ := by
  unfold summarizeRoute
  rw [if_pos h]

/-- C9 witness: the 51st request of a client with 50 hits in the window. -/
theorem rate_limit_rejects_51st_witness :
    summarizeRoute [] true (List.replicate 50 0) 0 "u".data
        (FetchOutcome.fail "x".data) (HFOutcome.netError "e".data) =
      ⟨⟨429, errorBody tooManyMsg⟩, [], true, 0 :: List.replicate 50 0,
        ⟨0, 0⟩⟩ :=
  rate_limit_rejects_51st [] true (List.replicate 50 0) 0 "u".data
    (FetchOutcome.fail "x".data) (HFOutcome.netError "e".data) (by decide)

/- Helper lemmas about the inference client and the fallback summarizer. -/

theorem hfExtract_truthy (body v : Json) (h : hfExtract body = some v) :
    v.truthy = true := by
  unfold hfExtract at h
  repeat' split at h
  all_goals simp_all

theorem joinSpace_take3_ne_nil (l : List Str) (h : 3 < l.length) :
    joinSpace (l.take 3) ≠ [] := by
  cases l with
  | nil => simp at h
  | cons a t =>
    cases t with
    | nil => simp at h
    | cons b t2 =>
      cases t2 with
      | nil => simp at h
      | cons c t3 => simp [joinSpace]

theorem fallbackSummary_ne_nil (text : Str) : fallbackSummary text 3 ≠ [] := by
  unfold fallbackSummary
  by_cases he : text.isEmpty = true
  · rw [if_pos he]
    decide
  · rw [if_neg he]
    show (if (splitSentences text).length ≤ 3 then text
          else joinSpace ((splitSentences text).take 3)) ≠ []
    by_cases hl : (splitSentences text).length ≤ 3
    · rw [if_pos hl]
      intro hnil
      rw [hnil] at he
      simp at he
    · rw [if_neg hl]
      exact joinSpace_take3_ne_nil _ (by omega)

theorem summarizeWithHF_ok_truthy (text : Str) (hf : HFOutcome) (v : Json)
    (h : (summarizeWithHF text hf).result = .ok v) : v.truthy = true := by
  unfold summarizeWithHF at h
  split at h
  · have hv : Json.str shortMsg = v := by simpa using h
    rw [← hv]
    decide
  · cases hf with
    | success body =>
      dsimp only at h
      cases hx : hfExtract body with
      | some v0 =>
        rw [hx] at h
        have hv : v0 = v := by simpa using h
        exact hv ▸ hfExtract_truthy body v0 hx
      | none =>
        rw [hx] at h
        simp at h
    | httpError s b m => simp at h
    | netError m => simp at h
    | timeout m => simp at h

theorem summarizeWithHF_failing (text : Str) (hf : HFOutcome)
    (hlen : 50 ≤ text.length) (hfail : hf.failing = true) :
    (summarizeWithHF text hf).requested = true ∧
    isThrown (summarizeWithHF text hf).result = true := by
  unfold summarizeWithHF
  rw [if_neg (by simp [shortCond_false text hlen])]
  cases hf with
  | success body =>
    unfold HFOutcome.failing at hfail
    dsimp only at hfail ⊢
    cases hx : hfExtract body with
    | some v => rw [hx] at hfail; simp at hfail
    | none => exact ⟨rfl, rfl⟩
  | httpError s b m => exact ⟨rfl, rfl⟩
  | netError m => exact ⟨rfl, rfl⟩
  | timeout m => exact ⟨rfl, rfl⟩

theorem summarizeWithHF_not_thrown (text : Str) (hf : HFOutcome)
    (hok : hf.failing = false) :
    isThrown (summarizeWithHF text hf).result = false := by
  unfold summarizeWithHF
  split
  · rfl
  · cases hf with
    | success body =>
      unfold HFOutcome.failing at hok
      dsimp only at hok ⊢
      cases hx : hfExtract body with
      | some v => rfl
      | none => rw [hx] at hok; simp at hok
    | httpError s b m => simp [HFOutcome.failing] at hok
    | netError m => simp [HFOutcome.failing] at hok
    | timeout m => simp [HFOutcome.failing] at hok

theorem runSummarize_truthy (text : Str) (hf : HFOutcome) :
    (runSummarize text hf).1.truthy = true := by
  unfold runSummarize
  cases hr : (summarizeWithHF text hf).result with
  | ok v =>
    simp only [hr]
    exact summarizeWithHF_ok_truthy text hf v hr
  | error e =>
    simp only [hr]
    cases hfb : fallbackSummary text 3 with
    | nil => exact absurd hfb (fallbackSummary_ne_nil text)
    | cons a l => simp [Json.truthy, hfb]

theorem runSummarize_calls_le_one (text : Str) (hf : HFOutcome) :
    (runSummarize text hf).2 ≤ 1 := by
  unfold runSummarize
  cases hq : (summarizeWithHF text hf).requested <;>
    cases hr : (summarizeWithHF text hf).result <;> simp [hq, hr]

theorem runSummarize_failing (text : Str) (hf : HFOutcome)
    (hlen : 50 ≤ text.length) (hfail : hf.failing = true) :
    runSummarize text hf = (.str (fallbackSummary text 3), 1) := by
  obtain ⟨h1, h2⟩ := summarizeWithHF_failing text hf hlen hfail
  unfold runSummarize
  cases hr : (summarizeWithHF text hf).result with
  | ok v => rw [hr] at h2; simp [isThrown] at h2
  | error e => simp [hr, h1]

/-- The /summarize route on the full miss path: not rate-limited, no live
cache entry, model ready, fetch succeeds. -/
theorem summarizeRoute_miss_ok (cache : Cache) (hits : List Nat) (now : Nat)
    (url html : Str) (hf : HFOutcome)
    (hnl : countInWindow hits now < RATE_MAX)
    (hmiss : cacheGet cache now url = none) :
    summarizeRoute cache true hits now url (.ok html) hf =
      ⟨⟨200, summaryBody (runSummarize (extractMainText html) hf).1⟩,
        cacheSet cache now url (runSummarize (extractMainText html) hf).1,
        true, now :: hits,
        ⟨1, (runSummarize (extractMainText html) hf).2⟩⟩ := by
  unfold summarizeRoute
  rw [if_neg (by omega)]
  unfold summarizeHandler
  rw [hmiss]
  rfl

/-- C4: with article text long enough to reach the endpoint, every
inference-client failure mode — 2xx response whose body fails the
summary-extraction guard (malformed or empty result), HTTP error, network
error, timeout — surfaces as a thrown error after the request was issued
(never as a returned string), and only failure modes do; and on such a
failure the orchestrator responds 200 with the fallback summarizer output
under the summary key, with no error indication, and caches that output. -/
theorem inference_failure_triggers_fallback
    (text : Str) (hf : HFOutcome) (cache : Cache) (hits : List Nat)
    (now : Nat) (url html : Str)
    (hlen : 50 ≤ text.length)
    (hfail : hf.failing = true)
    (hnl : countInWindow hits now < RATE_MAX)
    (hmiss : cacheGet cache now url = none)
    (hext : 50 ≤ (extractMainText html).length) :
    (summarizeWithHF text hf).requested = true ∧
    isThrown (summarizeWithHF text hf).result = true ∧
    (∀ hf2 : HFOutcome, hf2.failing = false →
      isThrown (summarizeWithHF text hf2).result = false) ∧
    (summarizeRoute cache true hits now url (.ok html) hf).resp =
      ⟨200, summaryBody (.str (fallbackSummary (extractMainText html) 3))⟩ ∧
    cacheGet (summarizeRoute cache true hits now url (.ok html) hf).cache
        now url =
      some (.str (fallbackSummary (extractMainText html) 3)) := by
  obtain ⟨h1, h2⟩ := summarizeWithHF_failing text hf hlen hfail
  refine ⟨h1, h2, fun hf2 hok => summarizeWithHF_not_thrown text hf2 hok, ?_, ?_⟩
  · rw [summarizeRoute_miss_ok cache hits now url html hf hnl hmiss,
        runSummarize_failing _ hf hext hfail]
  · rw [summarizeRoute_miss_ok cache hits now url html hf hnl hmiss]
    rw [runSummarize_failing _ hf hext hfail]
    rw [cacheGet_cacheSet_same, if_pos (by unfold TTL_MS; omega)]

/-- A concrete article text longer than 50 characters, used by witnesses. -/
def longText : Str :=
  "This sentence is deliberately written to exceed fifty characters in total length.".data

/-- A concrete well-formed inference-endpoint body, used by witnesses. -/
def goodHFBody : Json :=
  .arr [.obj [(summaryTextKey, .str "A fine summary of the article.".data)]]

/-- C4 witness: a timeout outcome on a long text is thrown and triggers the
fallback; the well-formed success outcome is not thrown. -/
theorem inference_failure_triggers_fallback_witness :
    (summarizeWithHF longText (HFOutcome.timeout "t".data)).requested = true ∧
    isThrown (summarizeWithHF longText (HFOutcome.timeout "t".data)).result =
      true ∧
    isThrown (summarizeWithHF longText (HFOutcome.success goodHFBody)).result =
      false ∧
    (summarizeRoute [] true [] 0 "u".data (.ok longText)
        (HFOutcome.timeout "t".data)).resp =
      ⟨200, summaryBody (.str (fallbackSummary (extractMainText longText) 3))⟩ :=
  have h := inference_failure_triggers_fallback longText
    (HFOutcome.timeout "t".data) [] [] 0 "u".data longText (by decide) rfl
    (by decide) rfl (by decide)
  ⟨h.1, h.2.1, h.2.2.1 (HFOutcome.success goodHFBody) (by decide), h.2.2.2.1⟩

/-- C3: after a /summarize call for a URL with no live cache entry succeeds on
the full path (not rate-limited, model ready, fetch ok) and stores its
summary, a second call for the same URL before the TTL elapses finds that
summary live in the cache and returns it with status 200, performing no
article fetch and no inference call; across the two calls exactly one fetch
and at most one inference request happen. -/
theorem summarize_second_call_served_from_cache
    (cache : Cache) (l1 l2 : List Nat) (now1 now2 : Nat) (url html : Str)
    (hf1 : HFOutcome) (f2 : FetchOutcome) (hf2 : HFOutcome)
    (hl1 : countInWindow l1 now1 < RATE_MAX)
    (hl2 : countInWindow l2 now2 < RATE_MAX)
    (hmiss : cacheGet cache now1 url = none)
    (htime : now2 < now1 + TTL_MS) :
    cacheGet (summarizeRoute cache true l1 now1 url (.ok html) hf1).cache
        now2 url =
      some (runSummarize (extractMainText html) hf1).1 ∧
    summarizeRoute (summarizeRoute cache true l1 now1 url (.ok html) hf1).cache
        true l2 now2 url f2 hf2 =
      ⟨⟨200, summaryBody (runSummarize (extractMainText html) hf1).1⟩,
        (summarizeRoute cache true l1 now1 url (.ok html) hf1).cache,
        true, now2 :: l2, ⟨0, 0⟩⟩ ∧
    (summarizeRoute cache true l1 now1 url (.ok html) hf1).effects.fetches =
      1 ∧
    (summarizeRoute cache true l1 now1 url (.ok html) hf1).effects.hfCalls ≤
      1 := by
  rw [summarizeRoute_miss_ok cache l1 now1 url html hf1 hl1 hmiss]
  have hget : cacheGet
      (cacheSet cache now1 url (runSummarize (extractMainText html) hf1).1)
      now2 url = some (runSummarize (extractMainText html) hf1).1 := by
    rw [cacheGet_cacheSet_same, if_pos htime]
  refine ⟨hget, ?_, rfl, runSummarize_calls_le_one _ _⟩
  unfold summarizeRoute
  rw [if_neg (by omega)]
  unfold summarizeHandler
  rw [hget]
  dsimp only
  rw [if_pos (runSummarize_truthy (extractMainText html) hf1)]

/-- C3 witness: concrete two-call run with an inference failure on the first
call (so the fallback summary is what gets cached and replayed). -/
theorem summarize_second_call_served_from_cache_witness :
    cacheGet (summarizeRoute [] true [] 0 "u".data (.ok longText)
        (HFOutcome.netError "e".data)).cache 1000 "u".data =
      some (runSummarize (extractMainText longText)
        (HFOutcome.netError "e".data)).1 ∧
    summarizeRoute (summarizeRoute [] true [] 0 "u".data (.ok longText)
        (HFOutcome.netError "e".data)).cache
        true [] 1000 "u".data (FetchOutcome.fail "f".data)
        (HFOutcome.timeout "t".data) =
      ⟨⟨200, summaryBody (runSummarize (extractMainText longText)
          (HFOutcome.netError "e".data)).1⟩,
        (summarizeRoute [] true [] 0 "u".data (.ok longText)
          (HFOutcome.netError "e".data)).cache,
        true, 1000 :: [], ⟨0, 0⟩⟩ ∧
    (summarizeRoute [] true [] 0 "u".data (.ok longText)
        (HFOutcome.netError "e".data)).effects.fetches = 1 ∧
    (summarizeRoute [] true [] 0 "u".data (.ok longText)
        (HFOutcome.netError "e".data)).effects.hfCalls ≤ 1 :=
  summarize_second_call_served_from_cache [] [] [] 0 1000 "u".data longText
    (HFOutcome.netError "e".data) (FetchOutcome.fail "f".data)
    (HFOutcome.timeout "t".data) (by decide) (by decide) rfl
    (by unfold TTL_MS; omega)

/- Lemmas for C10: what the orchestrator can write to the cache. -/

/-- The inference endpoint returns its summaries as strings: whenever a 2xx
body passes the extraction guard, the extracted value is a string. This is
the spec's typing of the external collaborator; the code itself does not
check it. -/
def HFOutcome.strShaped : HFOutcome → Prop :=
  fun hf => ∀ body v, hf = .success body → hfExtract body = some v →
    ∃ s : Str, v = .str s

theorem find?_filter_comm {α : Type} (l : List α) (p q : α → Bool)
    (himp : ∀ a, p a = true → q a = true) :
    (l.filter q).find? p = l.find? p := by
  induction l with
  | nil => rfl
  | cons a t ih =>
    by_cases hq : q a = true
    · rw [List.filter_cons_of_pos hq]
      by_cases hp : p a = true
      · rw [List.find?_cons_of_pos _ hp, List.find?_cons_of_pos _ hp]
      · rw [List.find?_cons_of_neg _ hp, List.find?_cons_of_neg _ hp]
        exact ih
    · have hp : p a = false := by
        cases hpa : p a
        · rfl
        · exact absurd (himp a hpa) hq
      rw [List.filter_cons_of_neg hq, List.find?_cons_of_neg _ (by simp [hp])]
      exact ih

theorem summarizeWithHF_ok_str (text : Str) (hf : HFOutcome) (v : Json)
    (hstr : hf.strShaped) (h : (summarizeWithHF text hf).result = .ok v) :
    ∃ s : Str, v = .str s := by
  unfold summarizeWithHF at h
  split at h
  · exact ⟨shortMsg, by simpa using h.symm⟩
  · cases hf with
    | success body =>
      dsimp only at h
      cases hx : hfExtract body with
      | some v0 =>
        rw [hx] at h
        have hv : v0 = v := by simpa using h
        exact hv ▸ hstr body v0 rfl hx
      | none =>
        rw [hx] at h
        simp at h
    | httpError s b m => simp at h
    | netError m => simp at h
    | timeout m => simp at h

theorem runSummarize_str (text : Str) (hf : HFOutcome)
    (hstr : hf.strShaped) :
    ∃ s : Str, (runSummarize text hf).1 = .str s ∧ s ≠ [] := by
  have ht := runSummarize_truthy text hf
  unfold runSummarize at ht ⊢
  cases hr : (summarizeWithHF text hf).result with
  | ok v =>
    simp only [hr] at ht ⊢
    obtain ⟨s, hs⟩ := summarizeWithHF_ok_str text hf v hstr hr
    refine ⟨s, hs, ?_⟩
    rw [hs] at ht
    intro hnil
    rw [hnil] at ht
    simp [Json.truthy] at ht
  | error e =>
    simp only [hr]
    exact ⟨fallbackSummary text 3, rfl, fallbackSummary_ne_nil text⟩

theorem miss_cache_cases (cache : Cache) (hfReady : Bool) (now : Nat)
    (url : Str) (fetch : FetchOutcome) (hf : HFOutcome) :
    (summarizeMiss cache hfReady now url fetch hf).cache = cache ∨
    ∃ html, fetch = .ok html ∧
      (summarizeMiss cache hfReady now url fetch hf).cache =
        cacheSet cache now url (runSummarize (extractMainText html) hf).1 := by
  unfold summarizeMiss
  cases hfReady
  · exact Or.inl rfl
  · cases fetch with
    | fail m => exact Or.inl rfl
    | ok html => exact Or.inr ⟨html, rfl, rfl⟩

theorem handler_cache_cases (cache : Cache) (hfReady : Bool) (now : Nat)
    (url : Str) (fetch : FetchOutcome) (hf : HFOutcome) :
    (summarizeHandler cache hfReady now url fetch hf).cache = cache ∨
    ∃ html, fetch = .ok html ∧
      (summarizeHandler cache hfReady now url fetch hf).cache =
        cacheSet cache now url (runSummarize (extractMainText html) hf).1 := by
  unfold summarizeHandler
  cases hc : cacheGet cache now url with
  | some v =>
    dsimp only
    by_cases ht : v.truthy = true
    · rw [if_pos ht]
      exact Or.inl rfl
    · rw [if_neg ht]
      exact miss_cache_cases cache hfReady now url fetch hf
  | none => exact miss_cache_cases cache hfReady now url fetch hf

/-- C10: every value the /summarize handler writes to the summary cache is a
non-empty string (given that the endpoint returns string summaries): a write
is either the non-empty too-short literal, a truthiness-checked summary_text,
or the never-empty fallback output — so any entry of the post-handler cache
is either an old entry or a non-empty string; and consequently, when every
cache value is truthy, the truthiness-based cache-hit test never treats a
live cache entry as a miss: a live entry is always returned as the summary
with no fetch and no inference call. -/
theorem cache_writes_nonempty (cache : Cache) (hfReady : Bool) (now : Nat)
    (url : Str) (fetch : FetchOutcome) (hf : HFOutcome)
    (hstr : hf.strShaped)
    (hinv : ∀ u e, lookupEntry cache u = some e → e.value.truthy = true) :
    (∀ u e,
      lookupEntry (summarizeHandler cache hfReady now url fetch hf).cache u =
          some e →
        lookupEntry cache u = some e ∨
        ∃ s : Str, e.value = .str s ∧ s ≠ []) ∧
    ∀ v, cacheGet cache now url = some v →
      summarizeHandler cache hfReady now url fetch hf =
        ⟨⟨200, summaryBody v⟩, cache, hfReady, ⟨0, 0⟩⟩ := by
  constructor
  · intro u e h
    rcases handler_cache_cases cache hfReady now url fetch hf with
      hcc | ⟨html, hfetch, hcc⟩
    · rw [hcc] at h
      exact Or.inl h
    · rw [hcc] at h
      unfold lookupEntry cacheSet at h
      by_cases hu : u = url
      · subst hu
        rw [List.find?_cons_of_pos _ (by simp)] at h
        have he : e = ⟨(runSummarize (extractMainText html) hf).1,
            now + TTL_MS⟩ := by simpa using h.symm
        obtain ⟨s, hs, hne⟩ := runSummarize_str (extractMainText html) hf hstr
        exact Or.inr ⟨s, by rw [he]; exact hs, hne⟩
      · rw [List.find?_cons_of_neg _ (by
            simp only [beq_iff_eq]
            exact fun hh => hu hh.symm)] at h
        rw [find?_filter_comm cache _ _ (by
            intro a ha
            simp only [beq_iff_eq] at ha
            simp only [Bool.not_eq_true', beq_eq_false_iff_ne, ne_eq, ha]
            exact hu)] at h
        exact Or.inl h
  · intro v hv
    have htru : v.truthy = true := by
      unfold cacheGet at hv
      cases hfind : cache.find? (fun p => p.1 == url) with
      | none => rw [hfind] at hv; exact absurd hv (by simp)
      | some p =>
        rw [hfind] at hv
        dsimp only at hv
        split at hv
        · have hv2 : p.2.value = v := by simpa using hv
          have hl : lookupEntry cache url = some p.2 := by
            unfold lookupEntry
            rw [hfind]
            rfl
          rw [← hv2]
          exact hinv url p.2 hl
        · exact absurd hv (by simp)
    unfold summarizeHandler
    rw [hv]
    dsimp only
    rw [if_pos htru]

/-- C10 witness: a singleton cache holding a live non-empty string entry is
served as a hit, untouched. -/
def witnessCache : Cache := [("u".data, ⟨Json.str "s".data, TTL_MS⟩)]

theorem cache_writes_nonempty_witness :
    summarizeHandler witnessCache true 0 "u".data (FetchOutcome.fail "f".data)
        (HFOutcome.netError "e".data) =
      ⟨⟨200, summaryBody (Json.str "s".data)⟩, witnessCache, true, ⟨0, 0⟩⟩ :=
  (cache_writes_nonempty witnessCache true 0 "u".data
    (FetchOutcome.fail "f".data) (HFOutcome.netError "e".data)
    (fun _ _ hb _ => HFOutcome.noConfusion hb)
    (by
      intro u e h
      unfold witnessCache lookupEntry List.find? at h
      split at h
      · have he : e = ⟨Json.str "s".data, TTL_MS⟩ := by simpa using h.symm
        rw [he]
        decide
      · simp at h)).2
    (Json.str "s".data) rfl

end NewsProxy
